import Mathlib

/-!
Verification development for the platformed-llm library.

This file embeds, as executable Lean definitions, the parts of the Rust
source relevant to the behaviour of the SSE framing layer
(`src/sse_stream.rs`), the three provider stream normalizers
(`src/providers/openai/client.rs`, `src/providers/vertex/google.rs`,
`src/providers/vertex/anthropic.rs`), the response accumulator
(`src/accumulator.rs`), the prompt / response round-trip
(`src/types/prompt.rs`, `src/response.rs`) and the provider factory
(`src/factory.rs`), and proves or refutes the specified properties of
those components.

Strings of the Rust source are modelled by Lean `String` (a list of
unicode scalar values); byte buffers are modelled as `List Nat` with
each element a byte value.  Rust `Option`/`Result` become `Option` and
`Except String`.  Hash maps and hash sets keyed by integers or strings
are modelled by association lists with the same insert/lookup/remove
semantics.
-/

/-! ## Core data model (src/types/message.rs, src/types/config.rs) -/

/-- Role of a message participant (src/types/message.rs `Role`). -/
inductive Role where
  | system
  | user
  | assistant
deriving DecidableEq, Repr

/-- A message with role and content (src/types/message.rs `Message`). -/
structure Message where
  role : Role
  content : String
deriving DecidableEq, Repr

/-- Function call information (src/types/message.rs `FunctionCall`).
The `id` field defaults to the empty string for the providers that build
the struct without populating it. -/
structure FunctionCall where
  id : String := ""
  call_id : String
  name : String
  arguments : String
deriving DecidableEq, Repr

/-- An input item in a conversation (src/types/message.rs `InputItem`). -/
inductive InputItem where
  | message (msg : Message)
  | functionCall (call : FunctionCall)
  | functionCallOutput (call_id : String) (output : String)
deriving DecidableEq, Repr

/-- Reason why generation finished (src/types/message.rs `FinishReason`). -/
inductive FinishReason where
  | stop
  | length
  | toolCalls
  | contentFilter
deriving DecidableEq, Repr

/-- Token usage information (src/types/config.rs `Usage`). -/
structure Usage where
  input_tokens : Nat := 0
  output_tokens : Nat := 0
  cached_tokens : Option Nat := none
deriving DecidableEq, Repr

/-- `Usage::default()`: all counts zero, no cached-token count. -/
def Usage.default : Usage := {}

/-! ## Canonical stream events (src/types/streaming.rs) -/

/-- Information about an output item being added
(src/types/streaming.rs `OutputItemInfo`). -/
inductive OutputItemInfo where
  | text
  | functionCall (name : String) (id : String)
deriving DecidableEq, Repr

/-- Events emitted during streaming (src/types/streaming.rs `StreamEvent`). -/
inductive StreamEvent where
  | contentDelta (delta : String)
  | outputItemAdded (item : OutputItemInfo)
  | functionCallComplete (call : FunctionCall)
  | done (finish_reason : FinishReason) (usage : Usage)
  | error (error : String)
deriving DecidableEq, Repr

/-! ## Response model (src/response.rs) -/

/-- An item in the LLM response output (src/response.rs `OutputItem`). -/
inductive OutputItem where
  | text (content : String)
  | functionCall (call : FunctionCall)
deriving DecidableEq, Repr

/-- A complete response from an LLM provider
(src/response.rs `CompleteResponse`). -/
structure CompleteResponse where
  output : List OutputItem
  finish_reason : FinishReason
  usage : Usage
deriving DecidableEq, Repr

/-- `OutputItem::to_input_item` (src/response.rs): text items become
assistant messages, function calls become function call input items. -/
def OutputItem.to_input_item : OutputItem → InputItem
  | .text content => .message { role := .assistant, content := content }
  | .functionCall call => .functionCall call

/-- `CompleteResponse::to_items` (src/response.rs): convert the response
to a sequence of input items, preserving order. -/
def CompleteResponse.to_items (r : CompleteResponse) : List InputItem :=
  r.output.map OutputItem.to_input_item

/-- `CompleteResponse::function_calls` (src/response.rs): all function
calls in order. -/
def CompleteResponse.function_calls (r : CompleteResponse) : List FunctionCall :=
  r.output.filterMap fun item =>
    match item with
    | .functionCall call => some call
    | _ => none

/-! ## Prompt builder (src/types/prompt.rs) -/

/-- A structured prompt containing a sequence of input items
(src/types/prompt.rs `Prompt`). -/
structure Prompt where
  items : List InputItem
deriving DecidableEq, Repr

/-- `Prompt::with_item`. -/
def Prompt.with_item (p : Prompt) (item : InputItem) : Prompt :=
  { items := p.items ++ [item] }

/-- `Prompt::with_items`. -/
def Prompt.with_items (p : Prompt) (items : List InputItem) : Prompt :=
  { items := p.items ++ items }

/-- `Prompt::with_response` (src/types/prompt.rs): append the response's
items to the conversation. -/
def Prompt.with_response (p : Prompt) (response : CompleteResponse) : Prompt :=
  { items := p.items ++ response.to_items }

/-! ## Response accumulator (src/accumulator.rs) -/

/-- Accumulates streaming deltas into a complete response
(src/accumulator.rs `ResponseAccumulator`). -/
structure ResponseAccumulator where
  output_items : List OutputItem := []
  finish_reason : Option FinishReason := none
  usage : Option Usage := none
deriving DecidableEq, Repr

/-- `ResponseAccumulator::process_event` (src/accumulator.rs).  The Rust
function returns `Ok(())` on every path, so it is modelled as a total
state transformer. -/
def ResponseAccumulator.process_event (a : ResponseAccumulator)
    (event : StreamEvent) : ResponseAccumulator :=
  match event with
  | .contentDelta delta =>
      match a.output_items.getLast? with
      | some (.text content) =>
          { a with output_items :=
              a.output_items.dropLast ++ [.text (content ++ delta)] }
      | _ =>
          { a with output_items := a.output_items ++ [.text delta] }
  | .outputItemAdded item =>
      match item with
      | .text => { a with output_items := a.output_items ++ [.text ""] }
      | .functionCall _ _ => a
  | .functionCallComplete call =>
      { a with output_items := a.output_items ++ [.functionCall call] }
  | .done finish_reason usage =>
      { a with finish_reason := some finish_reason, usage := some usage }
  | .error _ => a

/-- `ResponseAccumulator::finalize` (src/accumulator.rs). -/
def ResponseAccumulator.finalize (a : ResponseAccumulator) : CompleteResponse :=
  { output := a.output_items
    finish_reason := a.finish_reason.getD .stop
    usage := a.usage.getD Usage.default }

/-- Fold a list of stream events through the accumulator, starting from
a given accumulator state. -/
def accumulateFrom (a : ResponseAccumulator) (events : List StreamEvent) :
    ResponseAccumulator :=
  events.foldl ResponseAccumulator.process_event a

/-- Fold a list of stream events through a fresh accumulator. -/
def accumulate (events : List StreamEvent) : ResponseAccumulator :=
  accumulateFrom {} events

/-! ## SSE framing layer (src/sse_stream.rs)

Bytes are `Nat` values; byte buffers are `List Nat`.  A logical line is
decoded from UTF-8 once it is complete, exactly as in the source. -/

/-- A Server-Sent Events (SSE) event (src/sse_stream.rs `SseEvent`). -/
structure SseEvent where
  event_type : String := ""
  data : String := ""
  id : String := ""
  retry : Option Nat := none
deriving DecidableEq, Repr

/-- `SseEvent::is_empty` (src/sse_stream.rs). -/
def SseEvent.is_empty (e : SseEvent) : Bool :=
  e.data.data.isEmpty && e.event_type.data.isEmpty && e.id.data.isEmpty
    && e.retry.isNone

/-- Parsed events ready to be yielded (src/sse_stream.rs `EventBuffer`).
The `VecDeque` is modelled as a list: `push_back` appends, `pop` takes
the head. -/
structure EventBuffer where
  current_event : SseEvent := {}
  events : List SseEvent := []
deriving DecidableEq, Repr

/-- Remove the last character of a string when it is a newline; models
`data.ends_with('\n')` followed by `data.pop()`. -/
def popTrailingNewline (s : String) : String :=
  match s.data.getLast? with
  | some c => if c = '\n' then String.mk s.data.dropLast else s
  | none => s

/-- `EventBuffer::dispatch_event` (src/sse_stream.rs): ignore events with
an empty data field; otherwise strip one trailing newline, default the
event type to "message", push the event and reset the current event. -/
def EventBuffer.dispatch_event (b : EventBuffer) : EventBuffer :=
  if b.current_event.data.data.isEmpty then
    b
  else
    let e := b.current_event
    let e := { e with data := popTrailingNewline e.data }
    let e := if e.event_type.data.isEmpty then { e with event_type := "message" } else e
    { current_event := {}, events := b.events ++ [e] }

/-- `str::split_once` on a list of characters: everything before the
first occurrence of `sep` and everything after it. -/
def splitOnceChars (sep : Char) : List Char → Option (List Char × List Char)
  | [] => none
  | c :: cs =>
      if c = sep then some ([], cs)
      else
        match splitOnceChars sep cs with
        | some (pre, post) => some (c :: pre, post)
        | none => none

/-- `line.split_once(':').unwrap_or((line, ""))` (src/sse_stream.rs). -/
def splitOnceColon (line : String) : String × String :=
  match splitOnceChars ':' line.data with
  | some (pre, post) => (String.mk pre, String.mk post)
  | none => (line, "")

/-- Strip one optional leading space from the field value
(`if value.starts_with(' ') { value = &value[1..] }`). -/
def stripLeadingSpace (s : String) : String :=
  match s.data with
  | ' ' :: rest => String.mk rest
  | _ => s

/-- `str::trim` on the character list model. -/
def trimChars (s : String) : String :=
  String.mk (((s.data.dropWhile Char.isWhitespace).reverse.dropWhile
    Char.isWhitespace).reverse)

/-- Decimal parse used for the `retry` field (`value.trim().parse()` for
`u64`; accepts an optional leading `+`). -/
def parseRetry (s : String) : Option Nat :=
  let ds := match s.data with
            | '+' :: rest => rest
            | cs => cs
  if ds.isEmpty || !ds.all Char.isDigit then none
  else some (ds.foldl (fun n c => n * 10 + (c.toNat - '0'.toNat)) 0)

/-- The field-processing part of `EventBuffer::process_line`
(src/sse_stream.rs), applied after the line has been UTF-8 decoded.
An empty line dispatches the current event (and then falls through the
field parse as the comment case, exactly as in the source). -/
def EventBuffer.process_line_str (b : EventBuffer) (line : String) : EventBuffer :=
  let b := if line.data.isEmpty then b.dispatch_event else b
  let (field, value) := splitOnceColon line
  let value := stripLeadingSpace value
  if field = "" then
    b
  else if field = "event" then
    { b with current_event := { b.current_event with event_type := value } }
  else if field = "data" then
    { b with current_event :=
        { b.current_event with data := b.current_event.data ++ value ++ "\n" } }
  else if field = "id" then
    { b with current_event := { b.current_event with id := trimChars value } }
  else if field = "retry" then
    match parseRetry (trimChars value) with
    | some retry => { b with current_event := { b.current_event with retry := some retry } }
    | none => b
  else
    b

/-- Strict UTF-8 decoding of a byte list.  Mirrors
`std::str::from_utf8`: rejects continuation errors, overlong encodings,
surrogates and out-of-range values. -/
def utf8Decode : List Nat → Option (List Char)
  | [] => some []
  | b :: bs =>
    if b < 0x80 then
      (utf8Decode bs).map (Char.ofNat b :: ·)
    else if 0xC2 ≤ b ∧ b ≤ 0xDF then
      match bs with
      | b2 :: bs' =>
          if 0x80 ≤ b2 ∧ b2 ≤ 0xBF then
            (utf8Decode bs').map (Char.ofNat ((b - 0xC0) * 64 + (b2 - 0x80)) :: ·)
          else none
      | [] => none
    else if 0xE0 ≤ b ∧ b ≤ 0xEF then
      match bs with
      | b2 :: b3 :: bs' =>
          let lo2 := if b = 0xE0 then 0xA0 else 0x80
          let hi2 := if b = 0xED then 0x9F else 0xBF
          if (lo2 ≤ b2 ∧ b2 ≤ hi2) ∧ (0x80 ≤ b3 ∧ b3 ≤ 0xBF) then
            (utf8Decode bs').map
              (Char.ofNat ((b - 0xE0) * 4096 + (b2 - 0x80) * 64 + (b3 - 0x80)) :: ·)
          else none
      | _ => none
    else if 0xF0 ≤ b ∧ b ≤ 0xF4 then
      match bs with
      | b2 :: b3 :: b4 :: bs' =>
          let lo2 := if b = 0xF0 then 0x90 else 0x80
          let hi2 := if b = 0xF4 then 0x8F else 0xBF
          if (lo2 ≤ b2 ∧ b2 ≤ hi2) ∧ (0x80 ≤ b3 ∧ b3 ≤ 0xBF) ∧ (0x80 ≤ b4 ∧ b4 ≤ 0xBF) then
            (utf8Decode bs').map
              (Char.ofNat ((b - 0xF0) * 262144 + (b2 - 0x80) * 4096
                + (b3 - 0x80) * 64 + (b4 - 0x80)) :: ·)
          else none
      | _ => none
    else none

/-- UTF-8 encoding of a string into a byte list, used to build concrete
byte streams in theorem statements. -/
def utf8EncodeChar (c : Char) : List Nat :=
  let n := c.toNat
  if n < 0x80 then [n]
  else if n < 0x800 then [0xC0 + n / 64, 0x80 + n % 64]
  else if n < 0x10000 then
    [0xE0 + n / 4096, 0x80 + (n / 64) % 64, 0x80 + n % 64]
  else
    [0xF0 + n / 262144, 0x80 + (n / 4096) % 64, 0x80 + (n / 64) % 64, 0x80 + n % 64]

/-- Bytes of a string (UTF-8). -/
def strBytes (s : String) : List Nat :=
  s.data.foldr (fun c acc => utf8EncodeChar c ++ acc) []

/-- `EventBuffer::process_line` (src/sse_stream.rs): UTF-8 decode the
completed logical line, then process its field. -/
def EventBuffer.process_line (b : EventBuffer) (line : List Nat) :
    Except String EventBuffer :=
  match utf8Decode line with
  | none => .error "Invalid UTF-8 in SSE event"
  | some cs => .ok (b.process_line_str (String.mk cs))

/-- The framer state (src/sse_stream.rs `SseStream`, minus the inner
byte stream): partial-line buffer, CR flag, and the event buffer. -/
structure SseState where
  line_buffer : List Nat := []
  last_seen_cr : Bool := false
  events : EventBuffer := {}
deriving DecidableEq, Repr

/-- `memchr2(b'\n', b'\r', buffer)` split: the bytes before the first
line terminator, the terminator byte, and the rest. -/
def splitAtTerm : List Nat → Option (List Nat × Nat × List Nat)
  | [] => none
  | b :: bs =>
      if b = 10 ∨ b = 13 then some ([], b, bs)
      else
        match splitAtTerm bs with
        | some (pre, t, post) => some (b :: pre, t, post)
        | none => none

/-- The loop body of `SseStream::parse_buffer` (src/sse_stream.rs),
written with explicit fuel so that it reduces definitionally; the fuel
is the buffer length, which bounds the number of loop iterations because
every iteration consumes at least the terminator byte. -/
def parse_buffer_loop : Nat → SseState → List Nat → Except String SseState
  | 0, s, buffer => .ok { s with line_buffer := s.line_buffer ++ buffer }
  | fuel + 1, s, buffer =>
      match splitAtTerm buffer with
      | none => .ok { s with line_buffer := s.line_buffer ++ buffer }
      | some (pre, t, post) =>
          let is_nl := t = 10
          if s.last_seen_cr ∧ pre.isEmpty ∧ is_nl then
            -- Do nothing, found matching LF after CR
            parse_buffer_loop fuel { s with last_seen_cr := !is_nl } post
          else if s.line_buffer.isEmpty then
            match s.events.process_line pre with
            | .error e => .error e
            | .ok evs =>
                parse_buffer_loop fuel
                  { line_buffer := [], last_seen_cr := !is_nl, events := evs } post
          else
            match s.events.process_line (s.line_buffer ++ pre) with
            | .error e => .error e
            | .ok evs =>
                parse_buffer_loop fuel
                  { line_buffer := [], last_seen_cr := !is_nl, events := evs } post

/-- `SseStream::parse_buffer` (src/sse_stream.rs): process a chunk with
the line-ending state machine; remaining bytes after the last terminator
go to the partial-line buffer. -/
def parse_buffer (s : SseState) (buffer : List Nat) : Except String SseState :=
  parse_buffer_loop buffer.length s buffer

/-- Feed a sequence of byte chunks into a fresh framer. -/
def feed_chunks (chunks : List (List Nat)) : Except String SseState :=
  chunks.foldlM parse_buffer {}

/-- Outcome of polling the framer once the upstream byte stream has
ended (src/sse_stream.rs `SseStream::poll_next`, EOF branch). -/
inductive EofOutcome where
  | clean
  | errIncompleteLine
  | errIncompleteEvent
deriving DecidableEq, Repr

/-- The EOF branch of `SseStream::poll_next` (src/sse_stream.rs): error
if bytes remain in the partial-line buffer, error if the current event
is non-empty, otherwise the stream ends cleanly. -/
def poll_eof (s : SseState) : EofOutcome :=
  if !s.line_buffer.isEmpty then .errIncompleteLine
  else if !s.events.current_event.is_empty then .errIncompleteEvent
  else .clean

/-- Run the framer on a chunked byte stream: the events yielded (FIFO)
and the terminal outcome at upstream EOF. -/
def framerRun (chunks : List (List Nat)) :
    Except String (List SseEvent × EofOutcome) :=
  match feed_chunks chunks with
  | .error e => .error e
  | .ok s => .ok (s.events.events, poll_eof s)

/-! ## JSON values

A small model of `serde_json::Value` / `ijson::IValue`, with the
serializer used by the providers (`serde_json::to_string`). -/

/-- JSON values. -/
inductive Json where
  | null
  | bool (b : Bool)
  | num (n : Int)
  | str (s : String)
  | arr (items : List Json)
  | obj (fields : List (String × Json))

/-- JSON string escaping (quote, backslash and control characters). -/
def jsonEscapeChar (c : Char) : String :=
  if c = '"' then "\\\""
  else if c = '\\' then "\\\\"
  else if c = '\n' then "\\n"
  else if c = '\r' then "\\r"
  else if c = '\t' then "\\t"
  else String.mk [c]

/-- Serialize a JSON string body. -/
def jsonEscape (s : String) : String :=
  s.data.foldl (fun acc c => acc ++ jsonEscapeChar c) ""

mutual

/-- `serde_json::to_string` for the JSON model (compact form). -/
def Json.serialize : Json → String
  | .null => "null"
  | .bool b => if b then "true" else "false"
  | .num n => toString n
  | .str s => "\"" ++ jsonEscape s ++ "\""
  | .arr items => "[" ++ Json.serializeList items ++ "]"
  | .obj fields => "\x7b" ++ Json.serializeFields fields ++ "\x7d"

/-- Serialize array elements, comma separated. -/
def Json.serializeList : List Json → String
  | [] => ""
  | [x] => x.serialize
  | x :: xs => x.serialize ++ "," ++ Json.serializeList xs

/-- Serialize object fields, comma separated. -/
def Json.serializeFields : List (String × Json) → String
  | [] => ""
  | [(k, v)] => "\"" ++ jsonEscape k ++ "\":" ++ v.serialize
  | (k, v) :: fs => "\"" ++ jsonEscape k ++ "\":" ++ v.serialize ++ "," ++ Json.serializeFields fs

end

/-- `Value::is_null`. -/
def Json.isNull : Json → Bool
  | .null => true
  | _ => false

/-- `Value::is_object`. -/
def Json.isObject : Json → Bool
  | .obj _ => true
  | _ => false

/-- `value.as_object().unwrap().is_empty()` for object values. -/
def Json.objIsEmpty : Json → Bool
  | .obj fields => fields.isEmpty
  | _ => false

/-! ## Google (Gemini on Vertex) normalizer
(src/providers/vertex/google.rs, src/providers/vertex/google_types.rs) -/

/-- Google function call (google_types.rs `GoogleFunctionCall`). -/
structure GoogleFunctionCallWire where
  name : String
  args : Json

/-- Google function response (google_types.rs `GoogleFunctionResponse`). -/
structure GoogleFunctionResponseWire where
  name : String
  response : Json

/-- Part of a Google content (google_types.rs `GooglePart`). -/
inductive GooglePart where
  | text (text : String)
  | functionCall (function_call : GoogleFunctionCallWire)
  | functionResponse (function_response : GoogleFunctionResponseWire)

/-- Google content (google_types.rs `GoogleContent`). -/
structure GoogleContent where
  role : String
  parts : List GooglePart

/-- Google response candidate (google_types.rs `GoogleCandidate`,
without the unused safety ratings). -/
structure GoogleCandidate where
  content : GoogleContent
  finish_reason : Option String := none

/-- Google usage metadata (google_types.rs `GoogleUsageMetadata`). -/
structure GoogleUsageMetadata where
  prompt_token_count : Option Nat := none
  candidates_token_count : Option Nat := none
  total_token_count : Option Nat := none
deriving DecidableEq, Repr

/-- `impl From<GoogleUsageMetadata> for Usage` (google_types.rs). -/
def GoogleUsageMetadata.toUsage (m : GoogleUsageMetadata) : Usage :=
  { input_tokens := m.prompt_token_count.getD 0
    output_tokens := m.candidates_token_count.getD 0
    cached_tokens := none }

/-- Google API response (google_types.rs `GoogleResponse`). -/
structure GoogleResponseWire where
  candidates : List GoogleCandidate
  usage_metadata : Option GoogleUsageMetadata := none

/-- State for tracking output items during Google streaming
(google.rs `GoogleStreamState`).  The `HashSet<String>` of announced
function-call keys is modelled as a list; `uuid_counter` models the
fresh-UUID supply of `Uuid::new_v4` deterministically (the generated
identifiers are opaque and only their construction pattern matters). -/
structure GoogleStreamState where
  has_text_output : Bool := false
  announced_function_calls : List String := []
  uuid_counter : Nat := 0
deriving DecidableEq, Repr

/-- Per-part step of the loop in `GoogleProvider::convert_response_stateful`
(google.rs): text parts announce the text item once and emit deltas;
function-call parts announce once per (name, serialized args) key and
always emit a `FunctionCallComplete`; function responses are ignored. -/
def googlePartStep (acc : List StreamEvent × GoogleStreamState) (part : GooglePart) :
    List StreamEvent × GoogleStreamState :=
  let (events, state) := acc
  match part with
  | .text text =>
      let (events, state) :=
        if !state.has_text_output then
          (events ++ [.outputItemAdded .text], { state with has_text_output := true })
        else (events, state)
      if !(text = "") then (events ++ [.contentDelta text], state)
      else (events, state)
  | .functionCall function_call =>
      let function_key := function_call.name ++ ":" ++ function_call.args.serialize
      let base_id := toString state.uuid_counter
      let state := { state with uuid_counter := state.uuid_counter + 1 }
      let fc_id := "fc_" ++ base_id
      let call_id := "call_" ++ base_id
      let (events, state) :=
        if !state.announced_function_calls.contains function_key then
          (events ++ [.outputItemAdded (.functionCall function_call.name fc_id)],
           { state with announced_function_calls :=
               state.announced_function_calls ++ [function_key] })
        else (events, state)
      (events ++ [.functionCallComplete
          { call_id := call_id
            name := function_call.name
            arguments := function_call.args.serialize }], state)
  | .functionResponse _ => (events, state)

/-- The finish-reason mapping in `convert_response_stateful` (google.rs):
`"STOP"` → Stop, `"MAX_TOKENS"` → Length, `"SAFETY"` → ContentFilter,
anything else → Stop. -/
def googleMapFinishReason (s : String) : FinishReason :=
  if s = "STOP" then .stop
  else if s = "MAX_TOKENS" then .length
  else if s = "SAFETY" then .contentFilter
  else .stop

/-- `GoogleProvider::convert_response_stateful` (google.rs): process the
first candidate's parts, then emit `Done` when the candidate carries a
finish reason; a candidate-less response with usage metadata also emits
`Done { Stop }`. -/
def google_convert_response_stateful (response : GoogleResponseWire)
    (state : GoogleStreamState) : List StreamEvent × GoogleStreamState :=
  match response.candidates.head? with
  | some candidate =>
      let (events, state) := candidate.content.parts.foldl googlePartStep ([], state)
      match candidate.finish_reason with
      | some finish_reason_str =>
          let finish_reason := googleMapFinishReason finish_reason_str
          let usage := (response.usage_metadata.map GoogleUsageMetadata.toUsage).getD
            Usage.default
          (events ++ [.done finish_reason usage], state)
      | none => (events, state)
  | none =>
      match response.usage_metadata with
      | some meta => ([.done .stop meta.toUsage], state)
      | none => ([], state)

/-- Run the Google normalizer over a sequence of parsed SSE frames,
collecting the emitted canonical events. -/
def googleRunEvents (frames : List GoogleResponseWire) : List StreamEvent :=
  (frames.foldl
    (fun acc frame =>
      let (events, state) := google_convert_response_stateful frame acc.2
      (acc.1 ++ events, state))
    (([], {}) : List StreamEvent × GoogleStreamState)).1

/-! ## Anthropic (Claude on Vertex) normalizer
(src/providers/vertex/anthropic.rs, src/providers/vertex/anthropic_types.rs) -/

/-- Anthropic content block (anthropic_types.rs `AnthropicContentBlock`). -/
inductive AnthropicContentBlock where
  | text (text : String)
  | toolUse (id : String) (name : String) (input : Json)
  | toolResult (tool_use_id : String) (content : String)

/-- Anthropic usage information (anthropic_types.rs `AnthropicUsage`). -/
structure AnthropicUsageWire where
  input_tokens : Option Nat := none
  output_tokens : Option Nat := none
  cache_creation_input_tokens : Option Nat := none
  cache_read_input_tokens : Option Nat := none
deriving DecidableEq, Repr

/-- `impl From<AnthropicUsage> for Usage` (anthropic_types.rs). -/
def AnthropicUsageWire.toUsage (u : AnthropicUsageWire) : Usage :=
  { input_tokens := u.input_tokens.getD 0
    output_tokens := u.output_tokens.getD 0
    cached_tokens := u.cache_creation_input_tokens }

/-- Delta for content blocks (anthropic_types.rs `AnthropicContentDelta`). -/
inductive AnthropicContentDelta where
  | textDelta (text : String)
  | inputJsonDelta (partialJson : String)
deriving DecidableEq, Repr

/-- Delta for message-level changes
(anthropic_types.rs `AnthropicMessageDelta`). -/
structure AnthropicMessageDeltaWire where
  stop_reason : Option String := none
  usage : Option AnthropicUsageWire := none
deriving DecidableEq, Repr

/-- Anthropic streaming events (anthropic_types.rs `AnthropicStreamEvent`).
The `message_start` payload is ignored by the converter and omitted. -/
inductive AnthropicStreamEvent where
  | messageStart
  | contentBlockStart (index : Nat) (content_block : AnthropicContentBlock)
  | contentBlockDelta (index : Nat) (delta : AnthropicContentDelta)
  | contentBlockStop (index : Nat)
  | messageDelta (delta : AnthropicMessageDeltaWire)
  | messageStop
  | ping

/-- A function call being built incrementally
(anthropic.rs `InProgressFunctionCall`). -/
structure InProgressFunctionCall where
  id : String
  name : String
  input_buffer : String
  has_initial_input : Bool
deriving DecidableEq, Repr

/-- State for tracking in-progress function calls (anthropic.rs
`StreamState`).  The `HashMap<u32, InProgressFunctionCall>` is modelled
as an association list with insert-overwrites semantics. -/
structure AnthStreamState where
  in_progress_calls : List (Nat × InProgressFunctionCall) := []
deriving DecidableEq, Repr

/-- `HashMap::insert`: add or overwrite the entry for a key. -/
def mapInsert (m : List (Nat × InProgressFunctionCall)) (k : Nat)
    (v : InProgressFunctionCall) : List (Nat × InProgressFunctionCall) :=
  (k, v) :: m.filter (fun p => p.1 ≠ k)

/-- `HashMap::get_mut` followed by an in-place update. -/
def mapUpdate (m : List (Nat × InProgressFunctionCall)) (k : Nat)
    (f : InProgressFunctionCall → InProgressFunctionCall) :
    List (Nat × InProgressFunctionCall) :=
  m.map (fun p => if p.1 = k then (p.1, f p.2) else p)

/-- `HashMap::remove`: the removed value (if present) and the rest. -/
def mapRemove (m : List (Nat × InProgressFunctionCall)) (k : Nat) :
    Option InProgressFunctionCall × List (Nat × InProgressFunctionCall) :=
  ((m.find? (fun p => p.1 = k)).map Prod.snd, m.filter (fun p => p.1 ≠ k))

/-- Key lookup in the in-progress map. -/
def mapLookup (m : List (Nat × InProgressFunctionCall)) (k : Nat) :
    Option InProgressFunctionCall :=
  (m.find? (fun p => p.1 = k)).map Prod.snd

/-- `AnthropicViaVertexProvider::convert_stream_event_stateful`
(anthropic.rs).  The Rust function's only error path is JSON
serialization of the initial tool input, which cannot fail for the JSON
model, so the function is total. -/
def anthropic_convert_stream_event_stateful (event : AnthropicStreamEvent)
    (state : AnthStreamState) : List StreamEvent × AnthStreamState :=
  match event with
  | .messageStart => ([], state)
  | .contentBlockStart index content_block =>
      match content_block with
      | .toolUse id name input =>
          let events := [StreamEvent.outputItemAdded (.functionCall name id)]
          let (initial_input, has_initial) :=
            if input.isNull || (input.isObject && input.objIsEmpty) then
              ("", false)
            else
              (input.serialize, true)
          let entry : InProgressFunctionCall :=
            { id := id, name := name, input_buffer := initial_input,
              has_initial_input := has_initial }
          (events,
           { state with
               in_progress_calls := mapInsert state.in_progress_calls index entry })
      | .text text =>
          let events := [StreamEvent.outputItemAdded .text]
          (if !(text = "") then events ++ [.contentDelta text] else events, state)
      | .toolResult _ _ => ([], state)
  | .contentBlockDelta index delta =>
      match delta with
      | .textDelta text =>
          (if !(text = "") then [.contentDelta text] else [], state)
      | .inputJsonDelta partialJson =>
          match mapLookup state.in_progress_calls index with
          | some _ =>
              ([],
               { state with in_progress_calls :=
                   mapUpdate state.in_progress_calls index (fun in_progress =>
                     if in_progress.has_initial_input then
                       { in_progress with input_buffer := partialJson }
                     else
                       { in_progress with
                           input_buffer := in_progress.input_buffer ++ partialJson }) })
          | none => ([], state)
  | .contentBlockStop index =>
      match mapRemove state.in_progress_calls index with
      | (some in_progress, rest) =>
          ([.functionCallComplete
              { call_id := in_progress.id
                name := in_progress.name
                arguments := in_progress.input_buffer }],
           { state with in_progress_calls := rest })
      | (none, _) => ([], state)
  | .messageDelta _ =>
      -- Usage and stop reason in `message_delta` are matched but not
      -- stored; no event is emitted (the source carries TODO markers
      -- for mapping them at `message_stop`).
      ([], state)
  | .messageStop =>
      ([.done .stop Usage.default], state)
  | .ping => ([], state)

/-- Run the Anthropic normalizer over a sequence of parsed stream events
from a fresh state, collecting the emitted canonical events. -/
def anthropicRunEvents (events : List AnthropicStreamEvent) : List StreamEvent :=
  (events.foldl
    (fun acc e =>
      let (out, state) := anthropic_convert_stream_event_stateful e acc.2
      (acc.1 ++ out, state))
    (([], {}) : List StreamEvent × AnthStreamState)).1

/-! ## OpenAI Responses normalizer
(src/providers/openai/client.rs, src/providers/openai/types.rs) -/

/-- Function call item in a streaming response
(openai/types.rs `ResponseItem`). -/
structure ResponseItem where
  id : String
  type : String
  status : String := ""
  arguments : Option String := none
  call_id : Option String := none
  name : Option String := none
deriving DecidableEq, Repr

/-- Output item of a Responses API response (openai/types.rs
`ResponseOutput`, restricted to the fields the converter reads). -/
structure ResponseOutput where
  type : String
  id : String
  status : String := ""
  name : Option String := none
  arguments : Option String := none
  call_id : Option String := none
deriving DecidableEq, Repr

/-- OpenAI Responses API response (openai/types.rs `ResponsesResponse`,
restricted to the fields the converter reads). -/
structure ResponsesResponse where
  output : List ResponseOutput
  usage : Usage
deriving DecidableEq, Repr

/-- OpenAI streaming Responses API event (openai/types.rs
`ResponsesStreamEvent`, restricted to the fields the converter reads). -/
structure ResponsesStreamEvent where
  type : String
  delta : Option String := none
  response : Option ResponsesResponse := none
  item : Option ResponseItem := none
deriving DecidableEq, Repr

/-- The function-call extraction performed by the `response.completed`
loop in `convert_stream_event_static` (openai/client.rs): one
`FunctionCallComplete` for every output with type `function_call` whose
`name` and `arguments` are both present. -/
def openaiExtractCompletedCall (output : ResponseOutput) : Option StreamEvent :=
  if output.type = "function_call" then
    match output.name, output.arguments with
    | some name, some args =>
        some (.functionCallComplete
          { id := output.id
            call_id := output.call_id.getD output.id
            name := name
            arguments := args })
    | _, _ => none
  else none

/-- `OpenAIProvider::convert_stream_event_static` (openai/client.rs).
The function is stateless: each provider event maps to a list of
canonical events independently of any earlier event. -/
def openai_convert_stream_event_static (event : ResponsesStreamEvent) :
    List StreamEvent :=
  if event.type = "response.output_text.delta" then
    match event.delta with
    | some delta => if !(delta = "") then [.contentDelta delta] else []
    | none => []
  else if event.type = "response.output_item.added" then
    match event.item with
    | some item =>
        let item_info :=
          if item.type = "function_call" then
            OutputItemInfo.functionCall (item.name.getD "unknown") item.id
          else
            OutputItemInfo.text
        [.outputItemAdded item_info]
    | none => []
  else if event.type = "response.output_item.done" then
    match event.item with
    | some item =>
        if item.type = "function_call" then
          match item.name, item.arguments with
          | some name, some args =>
              [.functionCallComplete
                { id := item.id
                  call_id := item.call_id.getD item.id
                  name := name
                  arguments := args }]
          | _, _ => []
        else []
    | none => []
  else if event.type = "response.completed" then
    match event.response with
    | some response =>
        let events := response.output.filterMap openaiExtractCompletedCall
        let finish_reason :=
          if !events.isEmpty then FinishReason.toolCalls else FinishReason.stop
        events ++ [.done finish_reason response.usage]
    | none => []
  else
    []

/-- Run the OpenAI normalizer over a sequence of parsed stream events;
since the converter is stateless this is a simple concatenation. -/
def openaiRunEvents (events : List ResponsesStreamEvent) : List StreamEvent :=
  events.foldl (fun acc e => acc ++ openai_convert_stream_event_static e) []

/-! ## Provider factory (src/factory.rs) -/

/-- Supported LLM providers (factory.rs `ProviderType`). -/
inductive ProviderType where
  | openai
  | google
  | anthropic
deriving DecidableEq, Repr

/-- Configuration for creating providers (factory.rs `ProviderConfig`). -/
structure ProviderConfig where
  provider_type : ProviderType
  api_key : Option String := none
  project_id : Option String := none
  location : Option String := none
  access_token : Option String := none
deriving DecidableEq, Repr

/-- `ProviderConfig::openai` (factory.rs). -/
def ProviderConfig.openaiCfg (api_key : String) : ProviderConfig :=
  { provider_type := .openai, api_key := some api_key }

/-- `ProviderConfig::vertex` (factory.rs).  The source panics when the
provider type is OpenAI; every call site in `from_env` passes Google or
Anthropic, so the panic branch is unreachable and not modelled. -/
def ProviderConfig.vertexCfg (provider_type : ProviderType) (project_id : String)
    (location : String) (access_token : String) : ProviderConfig :=
  { provider_type := provider_type, project_id := some project_id,
    location := some location, access_token := some access_token }

/-- `ProviderConfig::vertex_with_adc` (factory.rs); same unreachable
panic remark as for `vertexCfg`. -/
def ProviderConfig.vertexAdcCfg (provider_type : ProviderType) (project_id : String)
    (location : String) : ProviderConfig :=
  { provider_type := provider_type, project_id := some project_id,
    location := some location }

/-- A process environment: variable name to value.  `env::var` returns
`Err` exactly when the function returns `none`. -/
def Env : Type := String → Option String

/-- ASCII lowercasing used for `PROVIDER_TYPE.to_lowercase()`. -/
def strToLower (s : String) : String :=
  String.mk (s.data.map Char.toLower)

/-- `ProviderConfig::from_env` (factory.rs): explicit `PROVIDER_TYPE`
selection first, then credential-based inference. -/
def ProviderConfig.from_env (env : Env) : Except String ProviderConfig :=
  match env "PROVIDER_TYPE" with
  | some provider_type =>
      let pt := strToLower provider_type
      if pt = "openai" then
        match env "OPENAI_API_KEY" with
        | some api_key => .ok (ProviderConfig.openaiCfg api_key)
        | none => .error "OPENAI_API_KEY environment variable is required for OpenAI provider"
      else if pt = "google" then
        match env "GOOGLE_CLOUD_PROJECT" with
        | none => .error "GOOGLE_CLOUD_PROJECT environment variable is required for Google provider"
        | some project_id =>
            let location := (env "GOOGLE_CLOUD_REGION").getD "europe-west1"
            match env "VERTEX_ACCESS_TOKEN" with
            | some access_token =>
                .ok (ProviderConfig.vertexCfg .google project_id location access_token)
            | none => .ok (ProviderConfig.vertexAdcCfg .google project_id location)
      else if pt = "anthropic" then
        match env "GOOGLE_CLOUD_PROJECT" with
        | none => .error "GOOGLE_CLOUD_PROJECT environment variable is required for Anthropic provider"
        | some project_id =>
            let location := (env "GOOGLE_CLOUD_REGION").getD "europe-west1"
            match env "VERTEX_ACCESS_TOKEN" with
            | some access_token =>
                .ok (ProviderConfig.vertexCfg .anthropic project_id location access_token)
            | none => .ok (ProviderConfig.vertexAdcCfg .anthropic project_id location)
      else
        .error "Invalid PROVIDER_TYPE"
  | none =>
      -- Fallback to credential-based inference for backward compatibility
      match env "OPENAI_API_KEY" with
      | some api_key => .ok (ProviderConfig.openaiCfg api_key)
      | none =>
      match env "VERTEX_ACCESS_TOKEN" with
      | some access_token =>
          (match env "GOOGLE_CLOUD_PROJECT" with
           | none => .error "GOOGLE_CLOUD_PROJECT environment variable is required for Google"
           | some project_id =>
               let location := (env "GOOGLE_CLOUD_REGION").getD "europe-west1"
               .ok (ProviderConfig.vertexCfg .google project_id location access_token))
      | none =>
      match env "ANTHROPIC_VERTEX_ACCESS_TOKEN" with
      | some access_token =>
          (match env "GOOGLE_CLOUD_PROJECT" with
           | none => .error "GOOGLE_CLOUD_PROJECT environment variable is required for Anthropic"
           | some project_id =>
               let location := (env "GOOGLE_CLOUD_REGION").getD "europe-west1"
               .ok (ProviderConfig.vertexCfg .anthropic project_id location access_token))
      | none =>
      if (env "GOOGLE_APPLICATION_CREDENTIALS").isSome
          || (env "GOOGLE_CLOUD_PROJECT").isSome then
        match env "GOOGLE_CLOUD_PROJECT" with
        | none => .error "GOOGLE_CLOUD_PROJECT environment variable is required for Google"
        | some project_id =>
            let location := (env "GOOGLE_CLOUD_REGION").getD "europe-west1"
            if (env "ANTHROPIC_MODEL").isSome then
              .ok (ProviderConfig.vertexAdcCfg .anthropic project_id location)
            else
              .ok (ProviderConfig.vertexAdcCfg .google project_id location)
      else
        .error "No valid API credentials found in environment"

/-! ## Helper definitions used by the theorem statements -/

/-- Join strings with a single `"\n"` between consecutive elements. -/
def strJoinNl : List String → String
  | [] => ""
  | [v] => v
  | v :: vs => v ++ "\n" ++ strJoinNl vs

/-- Concatenation of a list of strings (left fold of append). -/
def strConcat (ds : List String) : String :=
  ds.foldl (fun a b => a ++ b) ""

/-- The finish reasons carried by the `Done` events of a canonical
event stream, in order. -/
def doneReasons (events : List StreamEvent) : List FinishReason :=
  events.filterMap fun e =>
    match e with
    | .done finish_reason _ => some finish_reason
    | _ => none

/-- The usages carried by the `Done` events of a canonical event
stream, in order. -/
def doneUsages (events : List StreamEvent) : List Usage :=
  events.filterMap fun e =>
    match e with
    | .done _ usage => some usage
    | _ => none

/-! ## Concrete inputs used by counterexamples and witnesses -/

/-- A well-formed single-event SSE payload mixing CR and LF
terminators: `data: a<CR>data: b<LF><LF>`. -/
def mixedTermPayload : List Nat := strBytes "data: a\rdata: b\n\n"

/-- The same payload split into two chunks, the break falling between
the second partial line and its LF terminator. -/
def mixedTermChunks : List (List Nat) :=
  [strBytes "data: a\rdata: b", strBytes "\n\n"]

/-- A Gemini frame carrying one functionCall part and finish reason
`"STOP"` with usage metadata. -/
def googleToolCallStopFrame : GoogleResponseWire :=
  let part := GooglePart.functionCall
    { name := "get_weather", args := Json.obj [("location", Json.str "Paris")] }
  let candidate : GoogleCandidate :=
    { content := { role := "model", parts := [part] }, finish_reason := some "STOP" }
  { candidates := [candidate]
    usage_metadata := some { prompt_token_count := some 10,
                             candidates_token_count := some 4 } }

/-- An OpenAI `response.output_item.done` item for a completed function
call. -/
def openaiDoneItem : ResponseItem :=
  { id := "fc_1", type := "function_call", status := "completed",
    name := some "get_weather", arguments := some "\x7b\x7d",
    call_id := some "call_1" }

/-- The matching `response.completed` payload listing the same function
call in its output. -/
def openaiCompletedResponse : ResponsesResponse :=
  { output := [
      { type := "function_call", id := "fc_1", status := "completed",
        name := some "get_weather", arguments := some "\x7b\x7d",
        call_id := some "call_1" } ],
    usage := { input_tokens := 5, output_tokens := 3 } }

/-- The canonical function call both OpenAI events describe. -/
def openaiDupCall : FunctionCall :=
  { id := "fc_1", call_id := "call_1", name := "get_weather",
    arguments := "\x7b\x7d" }

/-- An environment with a Vertex access token, a GCP project and an
Anthropic model hint, but no PROVIDER_TYPE and no OpenAI key. -/
def envVertexTokenWithAnthropicModel : Env := fun n =>
  if n = "VERTEX_ACCESS_TOKEN" then some "tok"
  else if n = "GOOGLE_CLOUD_PROJECT" then some "proj"
  else if n = "ANTHROPIC_MODEL" then some "claude-sonnet"
  else none

/-- The raw accumulated data of consecutive `data:` lines: each value
followed by the newline appended by `process_line`. -/
def dataLinesBlob : List String → String
  | [] => ""
  | v :: vs => v ++ "\n" ++ dataLinesBlob vs

/-- One step of the event-collecting fold that drives the Anthropic
normalizer over a stream: append the converted events, carry the state. -/
def anthStep (acc : List StreamEvent × AnthStreamState) (e : AnthropicStreamEvent) :
    List StreamEvent × AnthStreamState :=
  (acc.1 ++ (anthropic_convert_stream_event_stateful e acc.2).1,
   (anthropic_convert_stream_event_stateful e acc.2).2)

/-- The finish reason of the last `Done` event of a stream, if any
(the value the accumulator retains). -/
def lastDoneReason (events : List StreamEvent) : Option FinishReason :=
  events.foldl
    (fun acc e =>
      match e with
      | .done finish_reason _ => some finish_reason
      | _ => acc)
    none

/-- One step of the event-collecting fold that drives the Google
normalizer over a stream of frames. -/
def googStep (acc : List StreamEvent × GoogleStreamState) (frame : GoogleResponseWire) :
    List StreamEvent × GoogleStreamState :=
  (acc.1 ++ (google_convert_response_stateful frame acc.2).1,
   (google_convert_response_stateful frame acc.2).2)

/-! ## Theorems -/

/-- C1.  The framer's event sequence is NOT independent of chunk
boundaries.  The well-formed mixed-terminator payload
`data: a<CR>data: b<LF><LF>` fed as one chunk yields one event with
data `"a\nb"` and a clean end of stream, but split into the chunks
`"data: a\rdata: b"` / `"\n\n"` the leading LF of the second chunk is
absorbed as the pair of the CR seen before the partial line
`"data: b"`, the blank line is lost, and the framer yields no event and
fails with an incomplete-event error at EOF.  This contradicts the
state-machine contract the framer's own documentation and tests state
(robust splitting across buffer boundaries): the `last_seen_cr` absorb
check in `parse_buffer` does not require the partial-line buffer to be
empty. -/
theorem sse_chunk_boundary_dependence :
    framerRun [mixedTermPayload]
      = .ok ([{ event_type := "message", data := "a\nb", id := "", retry := none }],
             .clean)
    ∧ framerRun mixedTermChunks = .ok ([], .errIncompleteEvent) :=
  ⟨rfl, rfl⟩

/-- C4.  A `message_delta` event carrying both a stop reason and usage
emits nothing, and the `Done` emitted at `message_stop` carries
`Stop` and the default usage rather than the delivered
`max_tokens`/usage values: the Anthropic normalizer does not track
`message_delta` data (the source marks the mapping as TODO). -/
theorem anthropic_message_delta_not_tracked :
    anthropicRunEvents
        [.messageDelta { stop_reason := some "max_tokens",
                         usage := some { input_tokens := some 10, output_tokens := some 5 } },
         .messageStop]
      = [.done .stop Usage.default] :=
  rfl

/-- C8.  `Prompt::with_response` appends exactly `response.to_items()`
to the prompt's items, and `to_items` maps each `Text` output item to
an assistant `Message` with the same content and each `FunctionCall`
output item to an `InputItem::FunctionCall` with the identical call,
preserving the order of the response's output items. -/
theorem with_response_appends_to_items (p : Prompt) (r : CompleteResponse) :
    (p.with_response r).items = p.items ++ r.to_items
    ∧ r.to_items = r.output.map OutputItem.to_input_item
    ∧ (∀ content : String,
        OutputItem.to_input_item (.text content)
          = .message { role := .assistant, content := content })
    ∧ (∀ call : FunctionCall,
        OutputItem.to_input_item (.functionCall call) = .functionCall call) :=
  ⟨rfl, rfl, fun _ => rfl, fun _ => rfl⟩

/-- C2, counterexample.  A Gemini stream whose single frame carries a
function call and finish reason `"STOP"` accumulates to a
`CompleteResponse` with one `FunctionCall` output item whose finish
reason is `Stop`, not `ToolCalls`: the Google normalizer maps the wire
finish reasons only to Stop/Length/ContentFilter and the accumulator
adopts the `Done` reason verbatim, so the claimed equivalence between
`ToolCalls` and the presence of a `FunctionCall` item fails. -/
theorem google_toolcall_finishes_stop :
    (accumulate (googleRunEvents [googleToolCallStopFrame])).finalize.finish_reason
      = FinishReason.stop
    ∧ (accumulate (googleRunEvents [googleToolCallStopFrame])).finalize.function_calls.length
      = 1
    ∧ decide (FinishReason.stop = FinishReason.toolCalls) = false :=
  ⟨rfl, rfl, rfl⟩

/-- C5, counterexample.  When `response.output_item.done` has already
emitted a `FunctionCallComplete` for a call, a following
`response.completed` listing the same call emits it again: the OpenAI
converter is stateless and performs no duplicate suppression. -/
theorem openai_completed_duplicates_done :
    openaiRunEvents
        [{ type := "response.output_item.done", item := some openaiDoneItem },
         { type := "response.completed", response := some openaiCompletedResponse }]
      = [.functionCallComplete openaiDupCall,
         .functionCallComplete openaiDupCall,
         .done .toolCalls { input_tokens := 5, output_tokens := 3 }] :=
  rfl

/-- C9, counterexample.  With `PROVIDER_TYPE` unset,
`VERTEX_ACCESS_TOKEN` and `GOOGLE_CLOUD_PROJECT` set and
`ANTHROPIC_MODEL` set, `from_env` selects the Google provider, not
Anthropic: the access-token inference branch never consults
`ANTHROPIC_MODEL`. -/
theorem from_env_token_ignores_anthropic_model :
    ProviderConfig.from_env envVertexTokenWithAnthropicModel
      = .ok { provider_type := .google, project_id := some "proj",
              location := some "europe-west1", access_token := some "tok" }
    ∧ decide (ProviderType.google = ProviderType.anthropic) = false :=
  ⟨rfl, rfl⟩

/-- C10, counterexample.  The byte stream `data:<LF><LF>` yields exactly
one event whose `data` field is the empty string: the accumulated data
(`"\n"`) is non-empty at dispatch, and stripping the single trailing
newline leaves empty data on the yielded event. -/
theorem framer_yields_empty_data_event :
    framerRun [strBytes "data:\n\n"]
      = .ok ([{ event_type := "message", data := "", id := "", retry := none }],
             .clean) :=
  rfl

/-! ### Helper lemmas for the SSE framer -/

/-- Splitting a `data:` line at the first colon yields the `data` field
and the raw value. -/
theorem splitOnceColon_data_line (v : String) :
    splitOnceColon ("data: " ++ v) = ("data", " " ++ v) := by
  have hd : ("data: " ++ v).data = 'd' :: 'a' :: 't' :: 'a' :: ':' :: ' ' :: v.data := by
    rw [String.data_append]
    rfl
  have hsp : (" " ++ v).data = ' ' :: v.data := by
    rw [String.data_append]
    rfl
  unfold splitOnceColon
  rw [hd]
  show (String.mk ['d','a','t','a'], String.mk (' ' :: v.data)) = ("data", " " ++ v)
  rw [← hsp]

/-- Stripping the optional leading space from a value that starts with
one space yields the value. -/
theorem stripLeadingSpace_space (v : String) :
    stripLeadingSpace (" " ++ v) = v := by
  unfold stripLeadingSpace
  have hsp : (" " ++ v).data = ' ' :: v.data := by
    rw [String.data_append]
    rfl
  rw [hsp]
  rfl

/-- Processing the line `data: v` appends `v` and a newline to the
current event's data and changes nothing else. -/
theorem process_data_line (b : EventBuffer) (v : String) :
    b.process_line_str ("data: " ++ v)
      = { b with current_event :=
            { b.current_event with data := b.current_event.data ++ v ++ "\n" } } := by
  unfold EventBuffer.process_line_str
  have hd : ("data: " ++ v).data = 'd' :: 'a' :: 't' :: 'a' :: ':' :: ' ' :: v.data := by
    rw [String.data_append]
    rfl
  rw [splitOnceColon_data_line v, hd]
  simp only [List.isEmpty_cons, Bool.false_eq_true, if_false]
  rw [stripLeadingSpace_space v]
  simp

/-- Folding a list of `data: v` lines through the field processor
accumulates `v ++ "\n"` for each value, in order. -/
theorem fold_data_lines (vs : List String) (b : EventBuffer) :
    vs.foldl (fun b v => b.process_line_str ("data: " ++ v)) b
      = { b with current_event :=
            { b.current_event with data := b.current_event.data ++ dataLinesBlob vs } } := by
  induction vs generalizing b with
  | nil => simp [dataLinesBlob, String.append_empty]
  | cons v vs ih =>
      rw [List.foldl_cons, process_data_line, ih]
      simp [dataLinesBlob, String.append_assoc]

/-- The accumulated data of a non-empty list of data lines is a
non-empty character sequence. -/
theorem blob_ne_nil (vs : List String) (h : vs ≠ []) :
    (dataLinesBlob vs).data ≠ [] := by
  cases vs with
  | nil => exact absurd rfl h
  | cons v vs =>
      show (v ++ "\n" ++ dataLinesBlob vs).data ≠ []
      rw [String.data_append, String.data_append]
      simp

/-- The accumulated data of a non-empty list of data lines ends with a
newline. -/
theorem blob_getLast (vs : List String) (h : vs ≠ []) :
    (dataLinesBlob vs).data.getLast? = some '\n' := by
  induction vs with
  | nil => exact absurd rfl h
  | cons v vs ih =>
      show (v ++ "\n" ++ dataLinesBlob vs).data.getLast? = some '\n'
      rw [String.data_append, String.data_append]
      cases vs with
      | nil =>
          simp [dataLinesBlob]
      | cons w ws =>
          rw [List.append_assoc]
          have e1 : (v.data ++ ("\n".data ++ (dataLinesBlob (w :: ws)).data)).getLast?
              = ("\n".data ++ (dataLinesBlob (w :: ws)).data).getLast? :=
            List.getLast?_append_of_ne_nil v.data (by simp)
          have e2 : ("\n".data ++ (dataLinesBlob (w :: ws)).data).getLast?
              = (dataLinesBlob (w :: ws)).data.getLast? :=
            List.getLast?_append_of_ne_nil "\n".data (blob_ne_nil (w :: ws) (by simp))
          rw [e1, e2]
          exact ih (by simp)

/-- Dropping the final newline from the accumulated data of a non-empty
list of data lines yields the values joined with `"\n"`. -/
theorem blob_dropLast (vs : List String) (h : vs ≠ []) :
    String.mk (dataLinesBlob vs).data.dropLast = strJoinNl vs := by
  induction vs with
  | nil => exact absurd rfl h
  | cons v vs ih =>
      show String.mk (v ++ "\n" ++ dataLinesBlob vs).data.dropLast = _
      rw [String.data_append, String.data_append]
      cases vs with
      | nil =>
          simp [dataLinesBlob]
          rfl
      | cons w ws =>
          have hne : ("\n".data ++ (dataLinesBlob (w :: ws)).data) ≠ [] := by simp
          rw [List.append_assoc, List.dropLast_append_of_ne_nil _ hne]
          have hne2 : (dataLinesBlob (w :: ws)).data ≠ [] := blob_ne_nil (w :: ws) (by simp)
          show String.mk (v.data ++ ('\n' :: (dataLinesBlob (w :: ws)).data).dropLast) = _
          rw [List.dropLast_cons_of_ne_nil hne2]
          have ihd : (dataLinesBlob (w :: ws)).data.dropLast = (strJoinNl (w :: ws)).data :=
            congrArg String.data (ih (by simp))
          rw [ihd]
          have hr : (v ++ "\n" ++ strJoinNl (w :: ws)).data
              = v.data ++ '\n' :: (strJoinNl (w :: ws)).data := by
            rw [String.data_append, String.data_append]
            simp
          show String.mk (v.data ++ '\n' :: (strJoinNl (w :: ws)).data)
            = v ++ "\n" ++ strJoinNl (w :: ws)
          rw [← hr]

/-- C6.  An SSE event assembled from a non-empty sequence of `data: v`
lines carries, after the dispatching blank line, exactly the values
joined with `"\n"` with the single trailing newline stripped; and the
concrete byte stream `"data: a\r\ndata: b\n\ndata: c\r\r"` yields
exactly the two events `(data="a\nb")` and `(data="c")`. -/
theorem sse_multi_data_lines_join (vs : List String) (h : vs ≠ []) :
    ((vs.foldl (fun b v => b.process_line_str ("data: " ++ v))
        ({} : EventBuffer)).process_line_str "").events
      = [{ event_type := "message", data := strJoinNl vs, id := "", retry := none }]
    ∧ framerRun [strBytes "data: a\r\ndata: b\n\ndata: c\r\r"]
      = .ok ([{ event_type := "message", data := "a\nb", id := "", retry := none },
              { event_type := "message", data := "c", id := "", retry := none }],
             .clean) := by
  constructor
  · rw [fold_data_lines]
    show (EventBuffer.process_line_str
        { current_event := { data := "" ++ dataLinesBlob vs }, events := [] } "").events = _
    rw [show ("" ++ dataLinesBlob vs) = dataLinesBlob vs from String.empty_append _]
    unfold EventBuffer.process_line_str
    simp only [String.data, List.isEmpty_nil, if_true]
    show ((EventBuffer.dispatch_event _).events) = _
    unfold EventBuffer.dispatch_event
    simp only [List.isEmpty_eq_true]
    rw [if_neg (blob_ne_nil vs h)]
    unfold popTrailingNewline
    rw [blob_getLast vs h]
    simp only [if_true]
    rw [blob_dropLast vs h]
    simp
  · rfl

/-- C6, witness: the general statement applied to the concrete value
list `["a", "b"]`. -/
theorem sse_multi_data_lines_join_witness :
    (["a", "b"] ≠ ([] : List String))
    ∧ (((["a", "b"].foldl (fun b v => b.process_line_str ("data: " ++ v))
          ({} : EventBuffer)).process_line_str "").events
        = [{ event_type := "message", data := strJoinNl ["a", "b"], id := "",
             retry := none }]
      ∧ framerRun [strBytes "data: a\r\ndata: b\n\ndata: c\r\r"]
        = .ok ([{ event_type := "message", data := "a\nb", id := "", retry := none },
                { event_type := "message", data := "c", id := "", retry := none }],
               .clean)) :=
  ⟨by decide, sse_multi_data_lines_join ["a", "b"] (by decide)⟩

/-- C7.  At upstream EOF, a framer state with unterminated bytes in the
partial-line buffer yields a terminal error (in particular whenever
those bytes constitute an in-progress event); with an empty partial-line
buffer and no event in progress, the stream ends without error.  The
concrete runs show a dangling `data: x` line failing and a terminated
event ending cleanly. -/
theorem sse_eof_incomplete_line_errors (chunks : List (List Nat)) (s : SseState)
    (_h : feed_chunks chunks = .ok s) :
    (s.line_buffer ≠ [] → poll_eof s = .errIncompleteLine)
    ∧ (s.line_buffer = [] → s.events.current_event.is_empty = true →
        poll_eof s = .clean)
    ∧ framerRun [strBytes "data: x"] = .ok ([], .errIncompleteLine)
    ∧ framerRun [strBytes "data: x\n\n"]
      = .ok ([{ event_type := "message", data := "x", id := "", retry := none }],
             .clean) := by
  refine ⟨fun hl => ?_, fun hl he => ?_, rfl, rfl⟩
  · unfold poll_eof
    rw [if_pos]
    simp [hl]
  · unfold poll_eof
    rw [if_neg, if_neg]
    · simp [he]
    · simp [hl]

/-- C7, witness: the theorem applied to the single-chunk stream
`"data: x"`, whose final state has the dangling line in its buffer. -/
theorem sse_eof_incomplete_line_errors_witness :
    feed_chunks [strBytes "data: x"]
      = .ok { line_buffer := strBytes "data: x", last_seen_cr := false, events := {} }
    ∧ ({ line_buffer := strBytes "data: x", last_seen_cr := false,
         events := {} } : SseState).line_buffer ≠ []
    ∧ poll_eof { line_buffer := strBytes "data: x", last_seen_cr := false, events := {} }
      = .errIncompleteLine :=
  ⟨rfl, by decide,
   (sse_eof_incomplete_line_errors [strBytes "data: x"] _ rfl).1 (by decide)⟩

/-- C10, amended.  An event is dispatched at the blank line iff the
accumulated data buffer is non-empty at that point: with empty
accumulated data the dispatch is a no-op that retains the buffered
`event`/`id`/`retry` fields rather than discarding them, and with
non-empty accumulated data exactly one event is appended to the queue.
Because one trailing newline is stripped after the non-emptiness check,
a yielded event's `data` field itself can still be empty.  The concrete
run shows a retained `event:` field from a dispatch skipped for lack of
data colouring the next dispatched event. -/
theorem dispatch_skips_empty_data (b : EventBuffer) :
    (b.current_event.data.data.isEmpty = true → b.dispatch_event = b)
    ∧ (b.current_event.data.data.isEmpty = false →
        b.dispatch_event.events.length = b.events.length + 1)
    ∧ framerRun [strBytes "event: foo\n\ndata: x\n\n"]
      = .ok ([{ event_type := "foo", data := "x", id := "", retry := none }],
             .clean) := by
  refine ⟨fun he => ?_, fun he => ?_, rfl⟩
  · unfold EventBuffer.dispatch_event
    rw [if_pos he]
  · unfold EventBuffer.dispatch_event
    rw [if_neg (by simp [he])]
    simp

/-- C10, witness: the amended statement applied to a buffer holding an
`event:` field but empty data (dispatch is the identity) and to a buffer
holding data `"x\n"` (dispatch appends one event). -/
theorem dispatch_skips_empty_data_witness :
    (({ current_event := { event_type := "foo" }, events := [] } :
        EventBuffer).current_event.data.data.isEmpty = true
      ∧ ({ current_event := { event_type := "foo" }, events := [] } :
          EventBuffer).dispatch_event
        = { current_event := { event_type := "foo" }, events := [] })
    ∧ (({ current_event := { data := "x\n" }, events := [] } :
        EventBuffer).current_event.data.data.isEmpty = false
      ∧ ({ current_event := { data := "x\n" }, events := [] } :
          EventBuffer).dispatch_event.events.length = 1) :=
  ⟨⟨by decide, (dispatch_skips_empty_data _).1 (by decide)⟩,
   ⟨by decide, (dispatch_skips_empty_data _).2.1 (by decide)⟩⟩

/-! ### Helper lemmas for the Anthropic normalizer -/

/-- `anthropicRunEvents` is the first component of the `anthStep` fold. -/
theorem anthropicRunEvents_eq_fold (evs : List AnthropicStreamEvent) :
    anthropicRunEvents evs = (evs.foldl anthStep ([], {})).1 := rfl

/-- Events already collected are a passive prefix of the fold. -/
theorem anth_fold_shift (evs : List AnthropicStreamEvent) (es : List StreamEvent)
    (s : AnthStreamState) :
    evs.foldl anthStep (es, s)
      = (es ++ (evs.foldl anthStep ([], s)).1, (evs.foldl anthStep ([], s)).2) := by
  induction evs generalizing es s with
  | nil => simp
  | cons e evs ih =>
      rw [List.foldl_cons, List.foldl_cons]
      have h1 : anthStep (es, s) e
          = (es ++ (anthropic_convert_stream_event_stateful e s).1,
             (anthropic_convert_stream_event_stateful e s).2) := rfl
      have h2 : anthStep ([], s) e
          = ([] ++ (anthropic_convert_stream_event_stateful e s).1,
             (anthropic_convert_stream_event_stateful e s).2) := rfl
      rw [h1, h2, List.nil_append]
      rw [ih (es ++ (anthropic_convert_stream_event_stateful e s).1) _,
          ih (anthropic_convert_stream_event_stateful e s).1 _]
      simp

/-- Unfolding of string-list concatenation. -/
theorem strConcat_cons (d : String) (ds : List String) :
    strConcat (d :: ds) = d ++ strConcat ds := by
  have gen : ∀ (xs : List String) (a : String),
      xs.foldl (fun x y => x ++ y) a = a ++ strConcat xs := by
    intro xs
    induction xs with
    | nil => intro a; simp [strConcat, String.append_empty]
    | cons x xs ih =>
        intro a
        rw [List.foldl_cons, ih (a ++ x)]
        show a ++ x ++ strConcat xs = a ++ strConcat (x :: xs)
        rw [String.append_assoc]
        congr 1
        show x ++ strConcat xs = strConcat (x :: xs)
        rw [show strConcat (x :: xs) = xs.foldl (fun x y => x ++ y) ("" ++ x) from rfl]
        rw [String.empty_append, ih x]
  show ds.foldl (fun x y => x ++ y) ("" ++ d) = d ++ strConcat ds
  rw [String.empty_append, gen ds d]

/-- When the tracked call started without initial input, a sequence of
`input_json_delta` events appends each partial fragment to the buffer
and emits nothing. -/
theorem anth_delta_fold_append (idx : Nat) (id name buf : String) (ds : List String) :
    (ds.map (fun d => AnthropicStreamEvent.contentBlockDelta idx (.inputJsonDelta d))).foldl
        anthStep ([], { in_progress_calls :=
          [(idx, { id := id, name := name, input_buffer := buf, has_initial_input := false })] })
      = ([], { in_progress_calls :=
          [(idx, { id := id, name := name, input_buffer := buf ++ strConcat ds,
                   has_initial_input := false })] }) := by
  induction ds generalizing buf with
  | nil => simp [strConcat, String.append_empty]
  | cons d ds ih =>
      rw [List.map_cons, List.foldl_cons]
      have hstep : anthStep ([], ({ in_progress_calls :=
            [(idx, { id := id, name := name, input_buffer := buf,
                     has_initial_input := false })] } : AnthStreamState))
            (.contentBlockDelta idx (.inputJsonDelta d))
          = ([], { in_progress_calls :=
              [(idx, { id := id, name := name, input_buffer := buf ++ d,
                       has_initial_input := false })] }) := by
        simp [anthStep, anthropic_convert_stream_event_stateful, mapLookup, mapUpdate]
      rw [hstep, ih (buf ++ d), strConcat_cons, ← String.append_assoc]

/-- When the tracked call started with complete initial input, each
`input_json_delta` replaces the buffer, so the final buffer is the last
delta (or the initial buffer when no delta arrives). -/
theorem anth_delta_fold_replace (idx : Nat) (id name buf : String) (ds : List String) :
    (ds.map (fun d => AnthropicStreamEvent.contentBlockDelta idx (.inputJsonDelta d))).foldl
        anthStep ([], { in_progress_calls :=
          [(idx, { id := id, name := name, input_buffer := buf, has_initial_input := true })] })
      = ([], { in_progress_calls :=
          [(idx, { id := id, name := name, input_buffer := ds.getLastD buf,
                   has_initial_input := true })] }) := by
  induction ds generalizing buf with
  | nil => simp
  | cons d ds ih =>
      rw [List.map_cons, List.foldl_cons]
      have hstep : anthStep ([], ({ in_progress_calls :=
            [(idx, { id := id, name := name, input_buffer := buf,
                     has_initial_input := true })] } : AnthStreamState))
            (.contentBlockDelta idx (.inputJsonDelta d))
          = ([], { in_progress_calls :=
              [(idx, { id := id, name := name, input_buffer := d,
                       has_initial_input := true })] }) := by
        simp [anthStep, anthropic_convert_stream_event_stateful, mapLookup, mapUpdate]
      rw [hstep, ih d, List.getLastD_cons]

/-- C3.  For an Anthropic `tool_use` block: when the starting `input` is
null or an empty object, the argument buffer starts empty and the
`input_json_delta` fragments are concatenated in order, so the
`FunctionCallComplete` emitted at `content_block_stop` carries exactly
the concatenation of the N fragments; when the start carried non-empty
initial input, every `input_json_delta` replaces the buffer, so the
emitted arguments are the last fragment (the serialized initial input if
no fragment arrives). -/
theorem anthropic_incremental_tool_arguments (idx : Nat) (id name : String)
    (input : Json) (ds : List String) :
    ((input.isNull || (input.isObject && input.objIsEmpty)) = true →
      anthropicRunEvents
          (.contentBlockStart idx (.toolUse id name input)
            :: ds.map (fun d => .contentBlockDelta idx (.inputJsonDelta d))
            ++ [.contentBlockStop idx])
        = [.outputItemAdded (.functionCall name id),
           .functionCallComplete { call_id := id, name := name,
                                   arguments := strConcat ds }])
    ∧ ((input.isNull || (input.isObject && input.objIsEmpty)) = false →
      anthropicRunEvents
          (.contentBlockStart idx (.toolUse id name input)
            :: ds.map (fun d => .contentBlockDelta idx (.inputJsonDelta d))
            ++ [.contentBlockStop idx])
        = [.outputItemAdded (.functionCall name id),
           .functionCallComplete { call_id := id, name := name,
                                   arguments := ds.getLastD input.serialize }]) := by
  constructor
  · intro h
    show (List.foldl anthStep ([], {}) _).1 = _
    simp only [List.foldl_cons, List.foldl_append, List.foldl_nil]
    have hstart : anthStep ([], ({} : AnthStreamState))
        (.contentBlockStart idx (.toolUse id name input))
        = ([.outputItemAdded (.functionCall name id)],
           { in_progress_calls :=
              [(idx, { id := id, name := name, input_buffer := "",
                       has_initial_input := false })] }) := by
      simp [anthStep, anthropic_convert_stream_event_stateful, h, mapInsert]
    rw [hstart, anth_fold_shift, anth_delta_fold_append]
    simp [anthStep, anthropic_convert_stream_event_stateful, mapRemove, String.empty_append]
  · intro h
    show (List.foldl anthStep ([], {}) _).1 = _
    simp only [List.foldl_cons, List.foldl_append, List.foldl_nil]
    have hstart : anthStep ([], ({} : AnthStreamState))
        (.contentBlockStart idx (.toolUse id name input))
        = ([.outputItemAdded (.functionCall name id)],
           { in_progress_calls :=
              [(idx, { id := id, name := name, input_buffer := input.serialize,
                       has_initial_input := true })] }) := by
      simp [anthStep, anthropic_convert_stream_event_stateful, h, mapInsert]
    rw [hstart, anth_fold_shift, anth_delta_fold_replace]
    simp [anthStep, anthropic_convert_stream_event_stateful, mapRemove]

/-- C3, witness: the empty-object start with fragments `"ab"`, `"cd"`
concatenates to `"abcd"`, and a non-empty start with fragments `"XX"`,
`"YY"` ends with arguments `"YY"`. -/
theorem anthropic_incremental_tool_arguments_witness :
    ((Json.obj []).isNull || ((Json.obj []).isObject && (Json.obj []).objIsEmpty)) = true
    ∧ anthropicRunEvents
        (.contentBlockStart 0 (.toolUse "toolu_1" "get_weather" (Json.obj []))
          :: (["ab", "cd"].map (fun d => .contentBlockDelta 0 (.inputJsonDelta d)))
          ++ [.contentBlockStop 0])
      = [.outputItemAdded (.functionCall "get_weather" "toolu_1"),
         .functionCallComplete { call_id := "toolu_1", name := "get_weather",
                                 arguments := strConcat ["ab", "cd"] }]
    ∧ ((Json.num 7).isNull || ((Json.num 7).isObject && (Json.num 7).objIsEmpty)) = false
    ∧ anthropicRunEvents
        (.contentBlockStart 0 (.toolUse "t1" "f" (Json.num 7))
          :: (["XX", "YY"].map (fun d => .contentBlockDelta 0 (.inputJsonDelta d)))
          ++ [.contentBlockStop 0])
      = [.outputItemAdded (.functionCall "f" "t1"),
         .functionCallComplete { call_id := "t1", name := "f",
                                 arguments := ["XX", "YY"].getLastD (Json.num 7).serialize }] :=
  ⟨rfl,
   (anthropic_incremental_tool_arguments 0 "toolu_1" "get_weather" (Json.obj [])
      ["ab", "cd"]).1 rfl,
   rfl,
   (anthropic_incremental_tool_arguments 0 "t1" "f" (Json.num 7) ["XX", "YY"]).2 rfl⟩

/-! ### Helper lemmas for the normalizers and the accumulator -/

/-- Events already collected are a passive prefix of the OpenAI fold. -/
theorem openai_fold_shift (xs : List ResponsesStreamEvent) (acc : List StreamEvent) :
    xs.foldl (fun a e => a ++ openai_convert_stream_event_static e) acc
      = acc ++ openaiRunEvents xs := by
  induction xs generalizing acc with
  | nil => simp [openaiRunEvents]
  | cons x xs ih =>
      rw [List.foldl_cons, ih]
      show _ = acc ++ (List.foldl _ [] (x :: xs))
      rw [List.foldl_cons]
      rw [show ([] ++ openai_convert_stream_event_static x)
            = openai_convert_stream_event_static x from List.nil_append _]
      rw [ih (openai_convert_stream_event_static x), List.append_assoc]

/-- Shape of the events emitted for a `response.completed` payload. -/
theorem openai_completed_eq (r : ResponsesResponse) :
    openai_convert_stream_event_static { type := "response.completed", response := some r }
      = r.output.filterMap openaiExtractCompletedCall
        ++ [.done (if (r.output.filterMap openaiExtractCompletedCall).isEmpty
                     then .stop else .toolCalls) r.usage] := by
  unfold openai_convert_stream_event_static
  simp only [String.reduceEq, if_false, if_true, reduceIte]
  cases h : (r.output.filterMap openaiExtractCompletedCall).isEmpty <;> simp [h]

/-- Exactly the `function_call` outputs with `name` and `arguments`
present produce a `FunctionCallComplete` at `response.completed`. -/
theorem openai_extract_isSome_iff (o : ResponseOutput) :
    (openaiExtractCompletedCall o).isSome
      ↔ (o.type = "function_call" ∧ o.name.isSome ∧ o.arguments.isSome) := by
  unfold openaiExtractCompletedCall
  by_cases ht : o.type = "function_call"
  · simp only [ht, if_true]
    cases hn : o.name <;> cases ha : o.arguments <;> simp [hn, ha]
  · simp [ht]

/-- C5, amended.  The OpenAI converter is stateless: appending a
`response.completed` event to any prior event sequence appends one
`FunctionCallComplete` for every `function_call` output of the completed
response whose `name` and `arguments` are present, followed by the
`Done` event, regardless of which calls earlier `response.output_item.done`
events already emitted — there is no duplicate suppression. -/
theorem openai_no_dup_suppression (prior : List ResponsesStreamEvent)
    (r : ResponsesResponse) :
    openaiRunEvents (prior ++ [{ type := "response.completed", response := some r }])
      = openaiRunEvents prior
        ++ r.output.filterMap openaiExtractCompletedCall
        ++ [.done (if (r.output.filterMap openaiExtractCompletedCall).isEmpty
                     then .stop else .toolCalls) r.usage] := by
  show (List.foldl _ [] _) = _
  rw [List.foldl_append, openai_fold_shift]
  show openaiRunEvents prior ++ openai_convert_stream_event_static
      { type := "response.completed", response := some r } = _
  rw [openai_completed_eq, List.append_assoc]

/-- The accumulator's finish reason is the fold of the `Done` reasons
over the stream. -/
theorem acc_finish_fold (evs : List StreamEvent) (a : ResponseAccumulator) :
    (accumulateFrom a evs).finish_reason
      = evs.foldl
          (fun acc e =>
            match e with
            | StreamEvent.done finish_reason _ => some finish_reason
            | _ => acc)
          a.finish_reason := by
  induction evs generalizing a with
  | nil => rfl
  | cons e evs ih =>
      show (accumulateFrom (a.process_event e) evs).finish_reason = _
      rw [ih, List.foldl_cons]
      congr 1
      cases e with
      | contentDelta delta =>
          show (ResponseAccumulator.process_event a (.contentDelta delta)).finish_reason = _
          unfold ResponseAccumulator.process_event
          cases h : a.output_items.getLast? with
          | none => simp
          | some item => cases item <;> simp
      | outputItemAdded item => cases item <;> rfl
      | functionCallComplete call => rfl
      | done fr u => rfl
      | error e => rfl

/-- `googleRunEvents` is the first component of the `googStep` fold. -/
theorem googleRunEvents_eq_fold (frames : List GoogleResponseWire) :
    googleRunEvents frames = (frames.foldl googStep ([], {})).1 := rfl

/-- Processing one Gemini part emits no `Done` event. -/
theorem google_part_step_dones (acc : List StreamEvent × GoogleStreamState)
    (part : GooglePart) :
    doneReasons (googlePartStep acc part).1 = doneReasons acc.1 := by
  cases part with
  | text text =>
      by_cases hf : acc.2.has_text_output
      · by_cases ht : text = "" <;>
          simp [googlePartStep, hf, ht, doneReasons, List.filterMap_append]
      · by_cases ht : text = "" <;>
          simp [googlePartStep, hf, ht, doneReasons, List.filterMap_append]
  | functionCall fc =>
      obtain ⟨events, state⟩ := acc
      show doneReasons (googlePartStep (events, state) (.functionCall fc)).1
        = doneReasons events
      simp only [googlePartStep]
      split <;> simp [doneReasons, List.filterMap_append]
  | functionResponse fr => rfl

/-- Processing a candidate's parts emits no `Done` event. -/
theorem google_parts_fold_dones (parts : List GooglePart)
    (acc : List StreamEvent × GoogleStreamState) :
    doneReasons (parts.foldl googlePartStep acc).1 = doneReasons acc.1 := by
  induction parts generalizing acc with
  | nil => rfl
  | cons part parts ih =>
      rw [List.foldl_cons, ih, google_part_step_dones]

/-- The Gemini finish-reason mapping never yields `ToolCalls`. -/
theorem googleMapFinishReason_ne_toolCalls (s : String) :
    googleMapFinishReason s ≠ FinishReason.toolCalls := by
  unfold googleMapFinishReason
  split <;> try simp
  split <;> try simp
  split <;> simp

/-- `doneReasons` distributes over concatenation. -/
theorem doneReasons_append (xs ys : List StreamEvent) :
    doneReasons (xs ++ ys) = doneReasons xs ++ doneReasons ys := by
  simp [doneReasons]

/-- The `Done` reasons emitted for one Gemini frame. -/
theorem google_convert_dones_eq (frame : GoogleResponseWire) (s : GoogleStreamState) :
    doneReasons (google_convert_response_stateful frame s).1
      = (match frame.candidates.head? with
         | some c =>
             (match c.finish_reason with
              | some str => [googleMapFinishReason str]
              | none => [])
         | none =>
             (match frame.usage_metadata with
              | some _ => [FinishReason.stop]
              | none => [])) := by
  unfold google_convert_response_stateful
  cases hh : frame.candidates.head? with
  | none =>
      simp only [hh]
      cases frame.usage_metadata <;> simp [doneReasons]
  | some c =>
      simp only [hh]
      rw [show List.foldl googlePartStep ([], s) c.content.parts
            = ((List.foldl googlePartStep ([], s) c.content.parts).1,
               (List.foldl googlePartStep ([], s) c.content.parts).2) from rfl]
      cases hf : c.finish_reason with
      | none =>
          simp only [hf]
          rw [google_parts_fold_dones]
          rfl
      | some str =>
          simp only [hf]
          rw [doneReasons_append, google_parts_fold_dones]
          rfl

/-- No `Done` emitted for a Gemini frame carries `ToolCalls`. -/
theorem google_convert_dones (frame : GoogleResponseWire) (s : GoogleStreamState) :
    ∀ fr ∈ doneReasons (google_convert_response_stateful frame s).1,
      fr ≠ FinishReason.toolCalls := by
  intro fr hfr
  rw [google_convert_dones_eq] at hfr
  cases hh : frame.candidates.head? with
  | none =>
      rw [hh] at hfr
      have hfr2 : fr ∈ (match frame.usage_metadata with
          | some _ => [FinishReason.stop]
          | none => ([] : List FinishReason)) := hfr
      revert hfr2
      cases frame.usage_metadata with
      | none => intro hfr2; simp at hfr2
      | some m => intro hfr2; simp at hfr2; simp [hfr2]
  | some c =>
      rw [hh] at hfr
      have hfr2 : fr ∈ (match c.finish_reason with
          | some str => [googleMapFinishReason str]
          | none => ([] : List FinishReason)) := hfr
      revert hfr2
      cases c.finish_reason with
      | none => intro hfr2; simp at hfr2
      | some str =>
          intro hfr2
          simp at hfr2
          rw [hfr2]
          exact googleMapFinishReason_ne_toolCalls str

/-- No `Done` emitted by the Google normalizer carries `ToolCalls`. -/
theorem google_run_dones (frames : List GoogleResponseWire) :
    ∀ fr ∈ doneReasons (googleRunEvents frames), fr ≠ FinishReason.toolCalls := by
  suffices h : ∀ (frames : List GoogleResponseWire)
      (acc : List StreamEvent × GoogleStreamState),
      (∀ fr ∈ doneReasons acc.1, fr ≠ FinishReason.toolCalls) →
      ∀ fr ∈ doneReasons (frames.foldl googStep acc).1, fr ≠ FinishReason.toolCalls by
    exact h frames ([], {}) (by simp [doneReasons])
  intro frames
  induction frames with
  | nil => intro acc hacc; exact hacc
  | cons frame frames ih =>
      intro acc hacc
      rw [List.foldl_cons]
      refine ih (googStep acc frame) ?_
      show ∀ fr ∈ doneReasons (acc.1 ++ (google_convert_response_stateful frame acc.2).1),
        fr ≠ FinishReason.toolCalls
      rw [doneReasons_append]
      intro fr hfr
      rcases List.mem_append.mp hfr with hl | hr
      · exact hacc fr hl
      · exact google_convert_dones frame acc.2 fr hr

/-- Every `Done` emitted by the Anthropic converter carries `Stop`. -/
theorem anthropic_convert_dones (e : AnthropicStreamEvent) (s : AnthStreamState) :
    ∀ fr ∈ doneReasons (anthropic_convert_stream_event_stateful e s).1,
      fr = FinishReason.stop := by
  intro fr hfr
  cases e with
  | messageStart => simp [anthropic_convert_stream_event_stateful, doneReasons] at hfr
  | contentBlockStart index cb =>
      cases cb with
      | toolUse id name input =>
          simp [anthropic_convert_stream_event_stateful, doneReasons] at hfr
      | text text =>
          by_cases ht : text = "" <;>
            simp [anthropic_convert_stream_event_stateful, ht, doneReasons] at hfr
      | toolResult a b =>
          simp [anthropic_convert_stream_event_stateful, doneReasons] at hfr
  | contentBlockDelta index delta =>
      cases delta with
      | textDelta text =>
          by_cases ht : text = "" <;>
            simp [anthropic_convert_stream_event_stateful, ht, doneReasons] at hfr
      | inputJsonDelta pj =>
          cases hl : mapLookup s.in_progress_calls index <;>
            simp [anthropic_convert_stream_event_stateful, hl, doneReasons] at hfr
  | contentBlockStop index =>
      cases hr : (mapRemove s.in_progress_calls index).1 with
      | none =>
          rw [show (anthropic_convert_stream_event_stateful (.contentBlockStop index) s)
              = (match ((mapRemove s.in_progress_calls index).1,
                        (mapRemove s.in_progress_calls index).2) with
                 | (some ip, rest) =>
                     ([.functionCallComplete { call_id := ip.id, name := ip.name,
                                               arguments := ip.input_buffer }],
                      ({ in_progress_calls := rest } : AnthStreamState))
                 | (none, _) => ([], s)) from rfl] at hfr
          rw [hr] at hfr
          simp [doneReasons] at hfr
      | some ip =>
          rw [show (anthropic_convert_stream_event_stateful (.contentBlockStop index) s)
              = (match ((mapRemove s.in_progress_calls index).1,
                        (mapRemove s.in_progress_calls index).2) with
                 | (some ip, rest) =>
                     ([.functionCallComplete { call_id := ip.id, name := ip.name,
                                               arguments := ip.input_buffer }],
                      ({ in_progress_calls := rest } : AnthStreamState))
                 | (none, _) => ([], s)) from rfl] at hfr
          rw [hr] at hfr
          simp [doneReasons] at hfr
  | messageDelta delta =>
      simp [anthropic_convert_stream_event_stateful, doneReasons] at hfr
  | messageStop =>
      simp [anthropic_convert_stream_event_stateful, doneReasons] at hfr
      exact hfr
  | ping => simp [anthropic_convert_stream_event_stateful, doneReasons] at hfr

/-- Every `Done` emitted by the Anthropic normalizer carries `Stop`. -/
theorem anthropic_run_dones (evs : List AnthropicStreamEvent) :
    ∀ fr ∈ doneReasons (anthropicRunEvents evs), fr = FinishReason.stop := by
  suffices h : ∀ (evs : List AnthropicStreamEvent)
      (acc : List StreamEvent × AnthStreamState),
      (∀ fr ∈ doneReasons acc.1, fr = FinishReason.stop) →
      ∀ fr ∈ doneReasons (evs.foldl anthStep acc).1, fr = FinishReason.stop by
    exact h evs ([], {}) (by simp [doneReasons])
  intro evs
  induction evs with
  | nil => intro acc hacc; exact hacc
  | cons e evs ih =>
      intro acc hacc
      rw [List.foldl_cons]
      refine ih (anthStep acc e) ?_
      show ∀ fr ∈ doneReasons (acc.1 ++ (anthropic_convert_stream_event_stateful e acc.2).1),
        fr = FinishReason.stop
      rw [doneReasons_append]
      intro fr hfr
      rcases List.mem_append.mp hfr with hl | hr
      · exact hacc fr hl
      · exact anthropic_convert_dones e acc.2 fr hr

/-- `doneReasons` unfolds over a cons cell. -/
theorem doneReasons_cons (e : StreamEvent) (evs : List StreamEvent) :
    doneReasons (e :: evs)
      = (match e with
         | StreamEvent.done finish_reason _ => [finish_reason]
         | _ => []) ++ doneReasons evs := by
  cases e <;> simp [doneReasons]

/-- A property of all `Done` reasons transfers to the folded last one. -/
theorem foldl_lastDone_prop (p : FinishReason → Prop) (evs : List StreamEvent) :
    ∀ (a : Option FinishReason),
      (∀ fr ∈ doneReasons evs, p fr) →
      (∀ fr, a = some fr → p fr) →
      ∀ fr,
        evs.foldl
            (fun acc e =>
              match e with
              | StreamEvent.done finish_reason _ => some finish_reason
              | _ => acc)
            a = some fr → p fr := by
  induction evs with
  | nil => intro a _ ha fr h; exact ha fr h
  | cons e evs ih =>
      intro a hd ha fr h
      rw [List.foldl_cons] at h
      refine ih _ ?_ ?_ fr h
      · intro fr' hm
        refine hd fr' ?_
        rw [doneReasons_cons]
        exact List.mem_append_right _ hm
      · intro fr' he
        cases e with
        | done f u =>
            have hf : f = fr' := by
              simpa using he
            refine hd fr' ?_
            rw [doneReasons_cons, ← hf]
            simp
        | contentDelta d => exact ha fr' he
        | outputItemAdded i => exact ha fr' he
        | functionCallComplete c => exact ha fr' he
        | error m => exact ha fr' he

/-- A property holding for `Stop` and all `Done` reasons of a stream
holds for the finalized finish reason. -/
theorem acc_finalize_prop (p : FinishReason → Prop) (hstop : p FinishReason.stop)
    (evs : List StreamEvent) (hd : ∀ fr ∈ doneReasons evs, p fr) :
    p (accumulate evs).finalize.finish_reason := by
  show p ((accumulate evs).finish_reason.getD .stop)
  cases hres : (accumulate evs).finish_reason with
  | none => exact hstop
  | some fr =>
      have hf := acc_finish_fold evs {}
      refine foldl_lastDone_prop p evs none hd (by intro fr' h; cases h) fr ?_
      rw [← hf]
      exact hres

/-- The function-call completions extracted at `response.completed`
contain no `Done` event. -/
theorem doneReasons_extracted_nil (r : ResponsesResponse) :
    doneReasons (r.output.filterMap openaiExtractCompletedCall) = [] := by
  unfold doneReasons
  rw [List.filterMap_eq_nil_iff]
  intro a ha
  rcases List.mem_filterMap.mp ha with ⟨o, _, ho⟩
  unfold openaiExtractCompletedCall at ho
  by_cases ht : o.type = "function_call"
  · rw [if_pos ht] at ho
    cases hn : o.name with
    | none => rw [hn] at ho; cases ho
    | some name =>
        cases harg : o.arguments with
        | none => rw [hn, harg] at ho; cases ho
        | some args =>
            rw [hn, harg] at ho
            cases ho
            rfl
  · rw [if_neg ht] at ho
    cases ho

/-- C2, amended.  The accumulator's finish reason is exactly the reason
of the last `Done` event (Stop when none); the presence of
`FunctionCall` output items does not influence it.  Among the three
normalizers only the OpenAI one ever signals `ToolCalls`, and it does so
iff the `response.completed` payload lists at least one `function_call`
output with `name` and `arguments` present; a Gemini stream never
finalizes to `ToolCalls`, and an Anthropic stream always finalizes to
`Stop`. -/
theorem finish_reason_follows_provider_signal :
    (∀ events : List StreamEvent,
      (accumulate events).finalize.finish_reason = (lastDoneReason events).getD .stop)
    ∧ (∀ frames : List GoogleResponseWire,
        (accumulate (googleRunEvents frames)).finalize.finish_reason
          ≠ FinishReason.toolCalls)
    ∧ (∀ evs : List AnthropicStreamEvent,
        (accumulate (anthropicRunEvents evs)).finalize.finish_reason = FinishReason.stop)
    ∧ (∀ r : ResponsesResponse,
        doneReasons (openai_convert_stream_event_static
            { type := "response.completed", response := some r })
          = [if (r.output.filterMap openaiExtractCompletedCall).isEmpty
               then FinishReason.stop else FinishReason.toolCalls])
    ∧ (∀ r : ResponsesResponse,
        ((r.output.filterMap openaiExtractCompletedCall).isEmpty = false
          ↔ ∃ o ∈ r.output,
              o.type = "function_call" ∧ o.name.isSome ∧ o.arguments.isSome)) := by
  refine ⟨?_, ?_, ?_, ?_, ?_⟩
  · intro events
    show (accumulateFrom {} events).finish_reason.getD .stop = _
    rw [acc_finish_fold]
    rfl
  · intro frames
    exact acc_finalize_prop (· ≠ FinishReason.toolCalls) (by simp)
      (googleRunEvents frames) (google_run_dones frames)
  · intro evs
    exact acc_finalize_prop (· = FinishReason.stop) rfl
      (anthropicRunEvents evs) (anthropic_run_dones evs)
  · intro r
    rw [openai_completed_eq, doneReasons_append, doneReasons_extracted_nil]
    rfl
  · intro r
    constructor
    · intro h
      have hne : r.output.filterMap openaiExtractCompletedCall ≠ [] := by
        intro hnil
        rw [hnil] at h
        simp at h
      rcases List.exists_mem_of_ne_nil _ hne with ⟨x, hx⟩
      rcases List.mem_filterMap.mp hx with ⟨o, ho, hext⟩
      refine ⟨o, ho, ?_⟩
      exact (openai_extract_isSome_iff o).mp (by rw [hext]; rfl)
    · rintro ⟨o, ho, hq⟩
      have hs : (openaiExtractCompletedCall o).isSome :=
        (openai_extract_isSome_iff o).mpr hq
      cases hext : openaiExtractCompletedCall o with
      | none => rw [hext] at hs; cases hs
      | some x =>
          have hx : x ∈ r.output.filterMap openaiExtractCompletedCall :=
            List.mem_filterMap.mpr ⟨o, ho, hext⟩
          cases hl : r.output.filterMap openaiExtractCompletedCall with
          | nil => rw [hl] at hx; cases hx
          | cons y ys => simp [hl]

/-- C2, witness: the amended statement applied to the concrete Gemini
tool-call frame and to a bare Anthropic `message_stop` stream. -/
theorem finish_reason_follows_provider_signal_witness :
    (accumulate (googleRunEvents [googleToolCallStopFrame])).finalize.finish_reason
      ≠ FinishReason.toolCalls
    ∧ (accumulate (anthropicRunEvents [.messageStop])).finalize.finish_reason
      = FinishReason.stop :=
  ⟨finish_reason_follows_provider_signal.2.1 [googleToolCallStopFrame],
   finish_reason_follows_provider_signal.2.2.1 [.messageStop]⟩

/-- C9, amended.  With `PROVIDER_TYPE` unset, `from_env` selects OpenAI
when `OPENAI_API_KEY` is set; otherwise, when `VERTEX_ACCESS_TOKEN` is
set it selects Google (requiring `GOOGLE_CLOUD_PROJECT`); otherwise,
when `ANTHROPIC_VERTEX_ACCESS_TOKEN` is set it selects Anthropic;
otherwise, when `GOOGLE_APPLICATION_CREDENTIALS` or
`GOOGLE_CLOUD_PROJECT` is set it selects ambient-credential Vertex,
choosing Anthropic when `ANTHROPIC_MODEL` is set and Google otherwise.
`ANTHROPIC_MODEL` is consulted only in that last branch. -/
theorem from_env_inference_order (env : Env) (hpt : env "PROVIDER_TYPE" = none) :
    (∀ k, env "OPENAI_API_KEY" = some k →
      ProviderConfig.from_env env = .ok (ProviderConfig.openaiCfg k))
    ∧ (env "OPENAI_API_KEY" = none →
       ∀ t p, env "VERTEX_ACCESS_TOKEN" = some t →
        env "GOOGLE_CLOUD_PROJECT" = some p →
        ProviderConfig.from_env env
          = .ok (ProviderConfig.vertexCfg .google p
              ((env "GOOGLE_CLOUD_REGION").getD "europe-west1") t))
    ∧ (env "OPENAI_API_KEY" = none → env "VERTEX_ACCESS_TOKEN" = none →
       ∀ t p, env "ANTHROPIC_VERTEX_ACCESS_TOKEN" = some t →
        env "GOOGLE_CLOUD_PROJECT" = some p →
        ProviderConfig.from_env env
          = .ok (ProviderConfig.vertexCfg .anthropic p
              ((env "GOOGLE_CLOUD_REGION").getD "europe-west1") t))
    ∧ (env "OPENAI_API_KEY" = none → env "VERTEX_ACCESS_TOKEN" = none →
       env "ANTHROPIC_VERTEX_ACCESS_TOKEN" = none →
       ∀ p, env "GOOGLE_CLOUD_PROJECT" = some p →
        ProviderConfig.from_env env
          = .ok (ProviderConfig.vertexAdcCfg
              (if (env "ANTHROPIC_MODEL").isSome then .anthropic else .google) p
              ((env "GOOGLE_CLOUD_REGION").getD "europe-west1"))) := by
  refine ⟨?_, ?_, ?_, ?_⟩
  · intro k hk
    unfold ProviderConfig.from_env
    rw [hpt, hk]
  · intro ho t p ht hp
    unfold ProviderConfig.from_env
    rw [hpt, ho, ht, hp]
  · intro ho hv t p ht hp
    unfold ProviderConfig.from_env
    rw [hpt, ho, hv, ht, hp]
  · intro ho hv ha p hp
    unfold ProviderConfig.from_env
    rw [hpt, ho, hv, ha, hp]
    rw [if_pos (by simp)]
    cases (env "ANTHROPIC_MODEL").isSome <;> simp

/-- C9, witness: the amended statement applied to the concrete
environment of the counterexample (token branch selects Google) and to
an ambient-credentials environment where the Anthropic model hint
selects Anthropic. -/
theorem from_env_inference_order_witness :
    envVertexTokenWithAnthropicModel "PROVIDER_TYPE" = none
    ∧ envVertexTokenWithAnthropicModel "OPENAI_API_KEY" = none
    ∧ envVertexTokenWithAnthropicModel "VERTEX_ACCESS_TOKEN" = some "tok"
    ∧ envVertexTokenWithAnthropicModel "GOOGLE_CLOUD_PROJECT" = some "proj"
    ∧ ProviderConfig.from_env envVertexTokenWithAnthropicModel
      = .ok (ProviderConfig.vertexCfg .google "proj"
          ((envVertexTokenWithAnthropicModel "GOOGLE_CLOUD_REGION").getD "europe-west1")
          "tok") :=
  ⟨rfl, rfl, rfl, rfl,
   (from_env_inference_order envVertexTokenWithAnthropicModel rfl).2.1
     rfl "tok" "proj" rfl rfl⟩
